import Mathlib

/-!
Shallow embedding of `src/handlers/product.go` (package `handlers`).

BSON documents are modelled by `BsonValue`; Go slices (which distinguish
nil from empty) by `GoSlice`; a Go panic raised by an unchecked type
assertion `x.(bson.M)` is modelled by `Option.none` threaded through the
flattening loop.  The MongoDB driver is external: the handler is
parameterised by a `store` function producing a `QueryOutcome` from the
filter and find options that the code constructs.
-/

namespace PocApp

/-- A loosely typed BSON value, as decoded into `bson.M` / `bson.A`. -/
inductive BsonValue : Type where
  | str (s : String)
  | int (n : Int)
  | null
  | doc (fields : List (String × BsonValue))
  | arr (items : List BsonValue)

/-- A decoded `bson.M` document: an association list of fields. -/
abbrev BsonDoc := List (String × BsonValue)

/-- First-match field lookup in a decoded document (map indexing `m[key]`:
`none` models the nil interface value of a missing key). -/
def lookupField (fields : BsonDoc) (key : String) : Option BsonValue :=
  match fields with
  | [] => none
  | (k, v) :: rest => if k = key then some v else lookupField rest key

/-- A Go slice: `isNil` distinguishes the nil slice from an empty one,
which matters for JSON marshalling. -/
structure GoSlice (α : Type) : Type where
  isNil : Bool
  toList : List α
  deriving DecidableEq

/-- `var s []T` — the nil slice. -/
def GoSlice.goNil {α : Type} : GoSlice α := ⟨true, []⟩

/-- `[]T\x7b\x7d` — an empty but non-nil slice literal. -/
def GoSlice.mkEmpty {α : Type} : GoSlice α := ⟨false, []⟩

/-- `append(s, x)` with one element: the result is never nil. -/
def GoSlice.append {α : Type} (s : GoSlice α) (x : α) : GoSlice α :=
  ⟨false, s.toList ++ [x]⟩

/-- How `encoding/json` marshals a slice: nil marshals to JSON null,
any non-nil slice marshals to a JSON array. -/
inductive SliceJson : Type where
  | null
  | array (length : Nat)
  deriving DecidableEq

/-- JSON marshalling of a Go slice (null for nil, array otherwise). -/
def GoSlice.marshal {α : Type} (s : GoSlice α) : SliceJson :=
  if s.isNil then SliceJson.null else SliceJson.array s.toList.length

/-- The `Broker` response struct. -/
structure Broker : Type where
  key : String
  channelName : String
  deriving DecidableEq

/-- The `ProductGroup` response struct. -/
structure ProductGroup : Type where
  name : String
  key : String
  deriving DecidableEq

/-- The `ProductType` response struct. -/
structure ProductType : Type where
  name : String
  key : String
  deriving DecidableEq

/-- The `Insurer` response struct. -/
structure Insurer : Type where
  id : String
  insurerCode : String
  insurerName : String
  deriving DecidableEq

/-- The flattened `Product` response struct.  `brokers` is a Go slice so
that nil/non-nil is tracked. -/
structure Product : Type where
  id : String
  productName : String
  productGroup : ProductGroup
  productType : ProductType
  insurer : Insurer
  brokers : GoSlice Broker
  status : String
  deriving DecidableEq

/-- `getStringField(data, key)`: the checked cast `data.(bson.M)` followed
by the checked cast `dataMap[key].(string)`; any failure yields `""`. -/
def getStringField (data : BsonValue) (key : String) : String :=
  match data with
  | .doc fields =>
    match lookupField fields key with
    | some (.str s) => s
    | _ => ""
  | _ => ""

/-- The character class of the regex `[.*+?^$\x7b\x7d()|[\]\\]` compiled in
`SanitizeString`. -/
def metaChars : List Char :=
  ['.', '*', '+', '?', '^', '$', Char.ofNat 123, Char.ofNat 125,
   '(', ')', '|', '[', ']', '\\']

/-- Membership in the sanitizer's character class. -/
def isMetaChar (c : Char) : Bool := metaChars.contains c

/-- One left-to-right pass of `ReplaceAllString(input, backslash ++ match)`
over the single-character class: each matching character is replaced by a
backslash followed by itself. -/
def saniAux : List Char → List Char
  | [] => []
  | c :: rest =>
    if isMetaChar c then '\\' :: c :: saniAux rest else c :: saniAux rest

/-- `SanitizeString`: escape every regex metacharacter in the input. -/
def SanitizeString (input : String) : String :=
  String.mk (saniAux input.data)

/-- Modelled from the spec: the output is the input with a backslash
inserted immediately before each occurrence of a character from the set,
and is otherwise unchanged. -/
def escapeSpec (input : String) : String :=
  String.mk (input.data.flatMap fun c => if isMetaChar c then ['\\', c] else [c])

/-- `strconv.Atoi` on a decimal string with optional sign; `none` models a
returned error (syntax error or 64-bit range error). -/
def parseDigitsAux (acc : Nat) : List Char → Option Nat
  | [] => some acc
  | c :: rest =>
    if c.isDigit then parseDigitsAux (acc * 10 + (c.toNat - 48)) rest else none

/-- Parse a non-empty all-digit string to a natural number. -/
def parseDigits : List Char → Option Nat
  | [] => none
  | cs => parseDigitsAux 0 cs

/-- The syntactic part of `strconv.Atoi`: optional leading sign followed
by decimal digits. -/
def AtoiRaw (s : String) : Option Int :=
  match s.data with
  | '+' :: rest => (parseDigits rest).map fun n => (n : Int)
  | '-' :: rest => (parseDigits rest).map fun n => -(n : Int)
  | cs => (parseDigits cs).map fun n => (n : Int)

/-- `strconv.Atoi`: optional leading sign, decimal digits, int64 range. -/
def Atoi (s : String) : Option Int :=
  match AtoiRaw s with
  | none => none
  | some n => if n < -(2 ^ 63) ∨ 2 ^ 63 ≤ n then none else some n

/-- `page, err := strconv.Atoi(pageStr); if err != nil || page < 1 then 1`. -/
def effectivePage (pageStr : String) : Int :=
  match Atoi pageStr with
  | none => 1
  | some n => if n < 1 then 1 else n

/-- `limit, err := strconv.Atoi(limitStr); if err != nil || limit < 1 then 10`. -/
def effectiveLimit (limitStr : String) : Int :=
  match Atoi limitStr with
  | none => 10
  | some n => if n < 1 then 10 else n

/-- A value in the constructed `bson.M` filter. -/
inductive FilterValue : Type where
  | regex (pattern : String) (options : String)
  | orClauses (clauses : List (String × FilterValue))

/-- A case-insensitive regex clause `bson.M with regex pat, options i`. -/
def regexClause (pat : String) : FilterValue := FilterValue.regex pat "i"

/-- The five single-field documents listed under the filter's or-key. -/
def orFields (sanitizedParam : String) : List (String × FilterValue) :=
  [("productType.key", regexClause sanitizedParam),
   ("key", regexClause sanitizedParam),
   ("productList.productName", regexClause sanitizedParam),
   ("productList.insurer.insurerCode", regexClause sanitizedParam),
   ("productList.brokers.key", regexClause sanitizedParam)]

/-- `strings.ToUpper`. -/
def goToUpper (s : String) : String := s.toUpper

/-- The filter built by `GetProducts`: starts empty, gains an or-clause
when `param` is non-empty and a status regex clause when `status` is
non-empty. -/
def buildFilter (param status : String) : List (String × FilterValue) :=
  (if param = "" then []
   else [("$or", FilterValue.orClauses (orFields (SanitizeString param)))])
    ++ (if status = "" then []
        else [("productList.productStatus",
               regexClause (SanitizeString (goToUpper status)))])

/-- Conjunctive filter semantics, abstract in the per-clause matcher the
external store implements: a document matches when every clause does. -/
def filterMatches (matchClause : String → FilterValue → BsonDoc → Bool)
    (f : List (String × FilterValue)) (d : BsonDoc) : Bool :=
  f.all fun kv => matchClause kv.1 kv.2 d

/-- The find options `GetProducts` constructs. -/
structure FindOptions : Type where
  sortField : String
  sortOrder : Int
  skip : Int
  limit : Int
  deriving DecidableEq

/-- Two's-complement wraparound of Go's 64-bit machine-integer
arithmetic: reduce into the interval from -2^63 (inclusive) to 2^63
(exclusive). -/
def wrapInt64 (n : Int) : Int := (n + 2 ^ 63) % 2 ^ 64 - 2 ^ 63

/-- `options.Find().SetSort(...).SetSkip(int64((page-1)*limit))
.SetLimit(int64(limit))`: the subtraction and multiplication happen in
Go's `int`, a 64-bit machine integer that wraps on overflow. -/
def getProductsOptions (page limit : Int) : FindOptions :=
  { sortField := "productList.productName"
    sortOrder := 1
    skip := wrapInt64 (wrapInt64 (page - 1) * limit)
    limit := limit }

/-- What the external store does with skip and limit, applied to its
already-sorted matching group documents. -/
def applySkipLimit (sortedResults : List BsonDoc) (opts : FindOptions) :
    List BsonDoc :=
  (sortedResults.drop opts.skip.toNat).take opts.limit.toNat

/-- The unchecked type assertion `v.(bson.M)`: `none` models a panic. -/
def assertDoc (v : Option BsonValue) : Option BsonDoc :=
  match v with
  | some (.doc d) => some d
  | _ => none

/-- Build a `Broker` from a well-formed broker document. -/
def toBroker (m : BsonDoc) : Broker :=
  { key := getStringField (.doc m) "key"
    channelName := getStringField (.doc m) "channelName" }

/-- Modelled from the claim's words, for comparison with the loop: a
well-formed broker item yields its `Broker`, anything else nothing. -/
def toBrokerOption (item : BsonValue) : Option Broker :=
  match item with
  | .doc m => some (toBroker m)
  | _ => none

/-- One iteration of the broker loop: a checked cast keeps well-formed
items and silently drops the rest. -/
def addBrokerItem (acc : GoSlice Broker) (item : BsonValue) : GoSlice Broker :=
  match item with
  | .doc m => acc.append (toBroker m)
  | _ => acc

/-- `brokers := []Broker\x7b\x7d` then, when the `brokers` field is an
array, the checked-cast loop over its items. -/
def extractBrokers (productMap : BsonDoc) : GoSlice Broker :=
  match lookupField productMap "brokers" with
  | some (.arr items) => items.foldl addBrokerItem GoSlice.mkEmpty
  | _ => GoSlice.mkEmpty

/-- The `Product` literal built for one well-formed product-list entry,
after the two unchecked assertions produced `pt` and `ins`. -/
def mkProduct (result productMap pt ins : BsonDoc) : Product :=
  { id := getStringField (.doc productMap) "id"
    productName := getStringField (.doc productMap) "productName"
    productGroup :=
      { name := getStringField (.doc result) "name"
        key := getStringField (.doc result) "key" }
    productType :=
      { name := getStringField (.doc pt) "name"
        key := getStringField (.doc pt) "key" }
    insurer :=
      { id := getStringField (.doc ins) "_id"
        insurerCode := getStringField (.doc ins) "insurerCode"
        insurerName := getStringField (.doc ins) "insurerName" }
    brokers := extractBrokers productMap
    status := getStringField (.doc productMap) "productStatus" }

/-- One iteration of the inner loop over `productList`: a non-document
item is skipped (checked cast), a document item appends one product after
the two unchecked assertions on `productType` and `insurer`, whose
failure (`none`) models the panic. -/
def flattenItem (result : BsonDoc) (products : GoSlice Product)
    (item : BsonValue) : Option (GoSlice Product) :=
  match item with
  | .doc productMap =>
    match assertDoc (lookupField result "productType"),
        assertDoc (lookupField productMap "insurer") with
    | some pt, some ins => some (products.append (mkProduct result productMap pt ins))
    | _, _ => none
  | _ => some products

/-- The inner loop over the items of one group's `productList`. -/
def processItems (result : BsonDoc) (products : GoSlice Product) :
    List BsonValue → Option (GoSlice Product)
  | [] => some products
  | item :: rest =>
    match flattenItem result products item with
    | none => none
    | some products2 => processItems result products2 rest

/-- One iteration of the outer loop: when `productList` is not an array
the whole group document is skipped with `continue`. -/
def processGroup (products : GoSlice Product) (result : BsonDoc) :
    Option (GoSlice Product) :=
  match lookupField result "productList" with
  | some (.arr items) => processItems result products items
  | _ => some products

/-- The outer loop over all decoded group documents. -/
def processGroups (products : GoSlice Product) :
    List BsonDoc → Option (GoSlice Product)
  | [] => some products
  | result :: rest =>
    match processGroup products result with
    | none => none
    | some products2 => processGroups products2 rest

/-- `var products []Product` followed by the flattening loops. -/
def getProductsData (results : List BsonDoc) : Option (GoSlice Product) :=
  processGroups GoSlice.goNil results

/-- Does the document carry a `productList` field holding an array? -/
def hasProductListArray (d : BsonDoc) : Bool :=
  match lookupField d "productList" with
  | some (.arr _) => true
  | _ => false

/-- True for a product-list item that is itself a document (passes the
checked cast to `bson.M`). -/
def isDocItem : BsonValue → Bool
  | .doc _ => true
  | _ => false

/-- Number of well-formed (document) items in one group's `productList`
(zero when the field is absent or not an array). -/
def groupItemCount (result : BsonDoc) : Nat :=
  match lookupField result "productList" with
  | some (.arr items) => (items.filter isDocItem).length
  | _ => 0

/-- What the one store round trip produced: a find error, a decode error
from `cursor.All`, or the decoded result set. -/
inductive QueryOutcome : Type where
  | findError (msg : String)
  | decodeError (msg : String)
  | docs (results : List BsonDoc)

/-- The handler's observable outcome: a 200 with the data slice, an error
status with a raw string body, or a panic escaping the handler. -/
inductive HandlerResult : Type where
  | ok (data : GoSlice Product)
  | errorStatus (code : Nat) (body : String)
  | panicked
  deriving DecidableEq

/-- `GetProducts`, parameterised by the external store: parse page and
limit, build the filter and options, run the single query, and either
surface an error as a 500 with the raw message or flatten the results. -/
def GetProducts (param status pageStr limitStr : String)
    (store : List (String × FilterValue) → FindOptions → QueryOutcome) :
    HandlerResult :=
  let page := effectivePage pageStr
  let limit := effectiveLimit limitStr
  let filter := buildFilter param status
  let opts := getProductsOptions page limit
  match store filter opts with
  | .findError msg => .errorStatus 500 msg
  | .decodeError msg => .errorStatus 500 msg
  | .docs results =>
    match getProductsData results with
    | none => .panicked
    | some products => .ok products

/-! Concrete decoded documents used to instantiate the theorems. -/

/-- Fields of a well-formed insurer sub-document. -/
def demoInsurerFields : BsonDoc :=
  [("_id", .str "ins1"), ("insurerCode", .str "IC1"),
   ("insurerName", .str "Insurer One")]

/-- Fields of a well-formed product type sub-document. -/
def demoTypeAFields : BsonDoc := [("name", .str "Type A"), ("key", .str "TA")]

/-- Fields of another well-formed product type sub-document. -/
def demoTypeBFields : BsonDoc := [("name", .str "Type B"), ("key", .str "TB")]

/-- Fields of a well-formed product-list entry with no brokers field. -/
def demoItem1Fields : BsonDoc :=
  [("id", .str "p1"), ("productName", .str "Alpha"),
   ("productStatus", .str "ACTIVE"), ("insurer", .doc demoInsurerFields)]

/-- Fields of a well-formed product-list entry whose brokers array mixes
two well-formed broker documents with one malformed item. -/
def demoItem2Fields : BsonDoc :=
  [("id", .str "p2"), ("productName", .str "Beta"),
   ("productStatus", .str "INACTIVE"), ("insurer", .doc demoInsurerFields),
   ("brokers", .arr [.doc [("key", .str "b1"), ("channelName", .str "c1")],
                     .str "malformed",
                     .doc [("key", .str "b2"), ("channelName", .str "c2")]])]

/-- A group document whose product list mixes two well-formed entries with
one malformed (non-document) item. -/
def demoGroup1 : BsonDoc :=
  [("name", .str "Group A"), ("key", .str "GA"),
   ("productType", .doc demoTypeAFields),
   ("productList", .arr [.doc demoItem1Fields, .int 7, .doc demoItem2Fields])]

/-- A group document with two well-formed product-list entries. -/
def demoGroup2 : BsonDoc :=
  [("name", .str "Group B"), ("key", .str "GB"),
   ("productType", .doc demoTypeBFields),
   ("productList", .arr [.doc demoItem1Fields, .doc demoItem2Fields])]

/-- A group document with one well-formed entry and one malformed item. -/
def demoGroupSmall : BsonDoc :=
  [("name", .str "Group A"), ("key", .str "GA"),
   ("productType", .doc demoTypeAFields),
   ("productList", .arr [.doc demoItem1Fields, .int 7])]

/-- The product flattened from `demoGroup2`'s first entry. -/
def demoProductA : Product :=
  mkProduct demoGroup2 demoItem1Fields demoTypeBFields demoInsurerFields

/-- The product flattened from `demoGroup2`'s second entry. -/
def demoProductB : Product :=
  mkProduct demoGroup2 demoItem2Fields demoTypeBFields demoInsurerFields

/-- The product flattened from `demoGroupSmall`'s only well-formed entry. -/
def demoProductSmall : Product :=
  mkProduct demoGroupSmall demoItem1Fields demoTypeAFields demoInsurerFields

/-! Helper lemmas about the sanitizer and the flattening loops. -/

lemma saniAux_eq_flatMap (cs : List Char) :
    saniAux cs = cs.flatMap fun c => if isMetaChar c then ['\\', c] else [c] := by
  induction cs with
  | nil => rfl
  | cons c rest ih => cases hc : isMetaChar c <;> simp [saniAux, hc, ih]

lemma saniAux_id (cs : List Char) (h : ∀ c ∈ cs, isMetaChar c = false) :
    saniAux cs = cs := by
  induction cs with
  | nil => rfl
  | cons c rest ih =>
    have hc := h c (by simp)
    simp [saniAux, hc, ih fun x hx => h x (by simp [hx])]

lemma foldl_addBrokerItem_spec (items : List BsonValue) :
    ∀ acc : GoSlice Broker,
      (items.foldl addBrokerItem acc).toList
          = acc.toList ++ items.filterMap toBrokerOption ∧
        (items.foldl addBrokerItem acc).isNil
          = (acc.isNil && (items.filterMap toBrokerOption).isEmpty) := by
  induction items with
  | nil => intro acc; simp
  | cons item rest ih =>
    intro acc
    cases item with
    | doc m =>
      obtain ⟨h1, h2⟩ := ih (acc.append (toBroker m))
      refine ⟨?_, ?_⟩
      · calc ((BsonValue.doc m :: rest).foldl addBrokerItem acc).toList
            = (rest.foldl addBrokerItem (acc.append (toBroker m))).toList := rfl
          _ = (acc.append (toBroker m)).toList
                ++ rest.filterMap toBrokerOption := h1
          _ = acc.toList
                ++ (BsonValue.doc m :: rest).filterMap toBrokerOption := by
              simp [GoSlice.append, toBrokerOption]
      · calc ((BsonValue.doc m :: rest).foldl addBrokerItem acc).isNil
            = (rest.foldl addBrokerItem (acc.append (toBroker m))).isNil := rfl
          _ = ((acc.append (toBroker m)).isNil
                && (rest.filterMap toBrokerOption).isEmpty) := h2
          _ = (acc.isNil
                && ((BsonValue.doc m :: rest).filterMap toBrokerOption).isEmpty) := by
              simp [GoSlice.append, toBrokerOption]
    | str s0 => simpa [addBrokerItem, toBrokerOption] using ih acc
    | int n => simpa [addBrokerItem, toBrokerOption] using ih acc
    | null => simpa [addBrokerItem, toBrokerOption] using ih acc
    | arr its => simpa [addBrokerItem, toBrokerOption] using ih acc

lemma extractBrokers_toList (pm : BsonDoc) (items : List BsonValue)
    (h : lookupField pm "brokers" = some (BsonValue.arr items)) :
    (extractBrokers pm).toList = items.filterMap toBrokerOption := by
  unfold extractBrokers
  rw [h]
  exact ((foldl_addBrokerItem_spec items GoSlice.mkEmpty).1).trans
    (by simp [GoSlice.mkEmpty])

lemma extractBrokers_not_nil (pm : BsonDoc) :
    (extractBrokers pm).isNil = false := by
  unfold extractBrokers
  split
  · exact ((foldl_addBrokerItem_spec _ _).2).trans (by simp [GoSlice.mkEmpty])
  · rfl

lemma flattenItem_eq_some (result : BsonDoc) (acc : GoSlice Product)
    (item : BsonValue) (r : GoSlice Product)
    (h : flattenItem result acc item = some r) :
    (isDocItem item = false ∧ r = acc) ∨
      ∃ pm pt ins, item = BsonValue.doc pm ∧
        assertDoc (lookupField result "productType") = some pt ∧
        assertDoc (lookupField pm "insurer") = some ins ∧
        r = acc.append (mkProduct result pm pt ins) := by
  cases item with
  | doc pm =>
    right
    simp only [flattenItem] at h
    cases hpt : assertDoc (lookupField result "productType") with
    | none => rw [hpt] at h; exact Option.noConfusion h
    | some pt =>
      cases hins : assertDoc (lookupField pm "insurer") with
      | none => rw [hpt, hins] at h; exact Option.noConfusion h
      | some ins =>
        rw [hpt, hins] at h
        exact ⟨pm, pt, ins, rfl, rfl, hins, (Option.some.inj h).symm⟩
  | str s0 => exact Or.inl ⟨rfl, (Option.some.inj h).symm⟩
  | int n => exact Or.inl ⟨rfl, (Option.some.inj h).symm⟩
  | null => exact Or.inl ⟨rfl, (Option.some.inj h).symm⟩
  | arr its => exact Or.inl ⟨rfl, (Option.some.inj h).symm⟩

lemma processItems_spec (result : BsonDoc) :
    ∀ (items : List BsonValue) (acc s : GoSlice Product),
      processItems result acc items = some s →
      ∃ ps : List Product,
        s.toList = acc.toList ++ ps ∧
        s.isNil = (acc.isNil && ps.isEmpty) ∧
        ps.length = (items.filter isDocItem).length ∧
        ∀ p ∈ ps, p.brokers.isNil = false := by
  intro items
  induction items with
  | nil =>
    intro acc s h
    have hs := Option.some.inj h
    subst hs
    exact ⟨[], by simp, by simp, rfl, by simp⟩
  | cons item rest ih =>
    intro acc s h
    simp only [processItems] at h
    cases hf : flattenItem result acc item with
    | none => rw [hf] at h; exact Option.noConfusion h
    | some acc2 =>
      rw [hf] at h
      obtain ⟨ps', h1, h2, h3, h4⟩ := ih acc2 s h
      rcases flattenItem_eq_some result acc item acc2 hf with
        ⟨hnd, hacc⟩ | ⟨pm, pt, ins, hitem, _, _, hacc⟩
      · subst hacc
        exact ⟨ps', h1, h2, by simp [List.filter_cons, hnd, h3], h4⟩
      · subst hitem
        subst hacc
        refine ⟨mkProduct result pm pt ins :: ps', ?_, ?_, ?_, ?_⟩
        · rw [h1]; simp [GoSlice.append]
        · rw [h2]; simp [GoSlice.append]
        · simp [List.filter_cons, isDocItem, h3]
        · intro p hp
          rcases List.mem_cons.mp hp with hp | hp
          · subst hp; exact extractBrokers_not_nil pm
          · exact h4 p hp

lemma processGroup_spec (acc s : GoSlice Product) (d : BsonDoc)
    (h : processGroup acc d = some s) :
    ∃ ps : List Product,
      s.toList = acc.toList ++ ps ∧
      s.isNil = (acc.isNil && ps.isEmpty) ∧
      ps.length = groupItemCount d ∧
      ∀ p ∈ ps, p.brokers.isNil = false := by
  unfold processGroup at h
  cases hl : lookupField d "productList" with
  | none =>
    rw [hl] at h
    have hs := Option.some.inj h
    subst hs
    exact ⟨[], by simp, by simp, by simp [groupItemCount, hl], by simp⟩
  | some v =>
    rw [hl] at h
    cases v with
    | arr items =>
      obtain ⟨ps, h1, h2, h3, h4⟩ := processItems_spec d items acc s h
      exact ⟨ps, h1, h2, by rw [h3]; simp [groupItemCount, hl], h4⟩
    | str s0 =>
      have hs := Option.some.inj h
      subst hs
      exact ⟨[], by simp, by simp, by simp [groupItemCount, hl], by simp⟩
    | int n =>
      have hs := Option.some.inj h
      subst hs
      exact ⟨[], by simp, by simp, by simp [groupItemCount, hl], by simp⟩
    | null =>
      have hs := Option.some.inj h
      subst hs
      exact ⟨[], by simp, by simp, by simp [groupItemCount, hl], by simp⟩
    | doc f =>
      have hs := Option.some.inj h
      subst hs
      exact ⟨[], by simp, by simp, by simp [groupItemCount, hl], by simp⟩

lemma processGroups_spec :
    ∀ (docs : List BsonDoc) (acc s : GoSlice Product),
      processGroups acc docs = some s →
      ∃ ps : List Product,
        s.toList = acc.toList ++ ps ∧
        s.isNil = (acc.isNil && ps.isEmpty) ∧
        ps.length = (docs.map groupItemCount).sum ∧
        ∀ p ∈ ps, p.brokers.isNil = false := by
  intro docs
  induction docs with
  | nil =>
    intro acc s h
    have hs := Option.some.inj h
    subst hs
    exact ⟨[], by simp, by simp, rfl, by simp⟩
  | cons d rest ih =>
    intro acc s h
    simp only [processGroups] at h
    cases hg : processGroup acc d with
    | none => rw [hg] at h; exact Option.noConfusion h
    | some acc2 =>
      rw [hg] at h
      obtain ⟨ps2, g1, g2, g3, g4⟩ := ih acc2 s h
      obtain ⟨ps1, f1, f2, f3, f4⟩ := processGroup_spec acc acc2 d hg
      refine ⟨ps1 ++ ps2, ?_, ?_, ?_, ?_⟩
      · rw [g1, f1, List.append_assoc]
      · rw [g2, f2]; cases ps1 <;> simp
      · simp [List.length_append, f3, g3]
      · intro p hp
        rcases List.mem_append.mp hp with hp | hp
        · exact f4 p hp
        · exact g4 p hp

lemma processGroup_skip (d : BsonDoc) (h : hasProductListArray d = false)
    (acc : GoSlice Product) : processGroup acc d = some acc := by
  unfold hasProductListArray at h
  unfold processGroup
  cases hl : lookupField d "productList" with
  | none => rfl
  | some v =>
    rw [hl] at h
    cases v with
    | arr items => exact Bool.noConfusion h
    | str s0 => rfl
    | int n => rfl
    | null => rfl
    | doc f => rfl

lemma processGroups_append_skip (d : BsonDoc)
    (h : hasProductListArray d = false) :
    ∀ (pre post : List BsonDoc) (acc : GoSlice Product),
      processGroups acc (pre ++ d :: post) = processGroups acc (pre ++ post) := by
  intro pre
  induction pre with
  | nil =>
    intro post acc
    show processGroups acc (d :: post) = processGroups acc post
    simp only [processGroups]
    rw [processGroup_skip d h acc]
  | cons g pre ih =>
    intro post acc
    simp only [List.cons_append, processGroups]
    cases hg : processGroup acc g with
    | none => rfl
    | some acc2 => exact ih post acc2

lemma Atoi_range (s : String) (n : Int) (h : Atoi s = some n) :
    -(2 ^ 63) ≤ n ∧ n < 2 ^ 63 := by
  unfold Atoi at h
  cases hr : AtoiRaw s with
  | none => rw [hr] at h; exact Option.noConfusion h
  | some m =>
    rw [hr] at h
    have h' : (if m < -(2 ^ 63) ∨ 2 ^ 63 ≤ m then none else some m)
        = some n := h
    by_cases hp : m < -(2 ^ 63) ∨ 2 ^ 63 ≤ m
    · rw [if_pos hp] at h'
      exact Option.noConfusion h'
    · rw [if_neg hp] at h'
      have hmn := Option.some.inj h'
      subst hmn
      push_neg at hp
      exact hp

lemma effectivePage_bounds (s : String) :
    1 ≤ effectivePage s ∧ effectivePage s < 2 ^ 63 := by
  unfold effectivePage
  cases h : Atoi s with
  | none => exact ⟨le_refl 1, by norm_num⟩
  | some n =>
    obtain ⟨_h1, h2⟩ := Atoi_range s n h
    show 1 ≤ (if n < 1 then 1 else n) ∧ (if n < 1 then 1 else n) < 2 ^ 63
    by_cases hn : n < 1
    · rw [if_pos hn]
      exact ⟨le_refl 1, by norm_num⟩
    · rw [if_neg hn]
      push_neg at hn
      exact ⟨hn, h2⟩

lemma wrapInt64_eq_self (n : Int) (h1 : -(2 ^ 63) ≤ n) (h2 : n < 2 ^ 63) :
    wrapInt64 n = n := by
  unfold wrapInt64
  have h0 : (0 : Int) ≤ n + 2 ^ 63 := by linarith
  have h3 : n + 2 ^ 63 < 2 ^ 64 := by
    have he : (2 : Int) ^ 64 = 2 ^ 63 + 2 ^ 63 := by norm_num
    linarith
  rw [Int.emod_eq_of_lt h0 h3]
  ring

lemma take_length_le {α : Type} (n : Nat) (l : List α) :
    (l.take n).length ≤ n := by
  induction l generalizing n with
  | nil => simp
  | cons a l ih =>
    cases n with
    | zero => simp
    | succ n => simp [ih n]

/-! The claims. -/

/-- C1: for every decoded result set that the handler flattens without
aborting, the number of flattened products equals the total count of
well-formed (document) product-list items across all matched group
documents, not the count of group documents. -/
theorem flattened_count_matches_wellformed_items (results : List BsonDoc)
    (s : GoSlice Product) (h : getProductsData results = some s) :
    s.toList.length = (results.map groupItemCount).sum := by
  obtain ⟨ps, h1, _h2, h3, _h4⟩ := processGroups_spec results GoSlice.goNil s h
  rw [h1]
  simpa [GoSlice.goNil] using h3

/-- Witness for C1: one group document with one well-formed entry and one
malformed item flattens to exactly one product. -/
theorem flattened_count_matches_wellformed_items_witness :
    (⟨false, [demoProductSmall]⟩ : GoSlice Product).toList.length
      = ([demoGroupSmall].map groupItemCount).sum :=
  flattened_count_matches_wellformed_items [demoGroupSmall]
    ⟨false, [demoProductSmall]⟩ (by decide)

/-- C2: the claim says missing or non-document `productType` and `insurer`
fields are recovered locally and the flattening never aborts; the code
instead performs unchecked type assertions there, so flattening a group
document without a `productType` document, or an entry without an
`insurer` document, aborts with a panic (modelled as `none`) and the
request produces no response. -/
theorem flatten_panics_on_missing_productType :
    getProductsData
        [[("name", BsonValue.str "Group A"), ("key", BsonValue.str "GA"),
          ("productList",
           BsonValue.arr [BsonValue.doc [("id", BsonValue.str "p1")]])]]
        = none ∧
      getProductsData
        [[("name", BsonValue.str "Group A"), ("key", BsonValue.str "GA"),
          ("productType", BsonValue.doc demoTypeAFields),
          ("productList",
           BsonValue.arr [BsonValue.doc [("id", BsonValue.str "p1")]])]]
        = none ∧
      GetProducts "" "" "" ""
          (fun _ _ => QueryOutcome.docs
            [[("name", BsonValue.str "Group A"), ("key", BsonValue.str "GA"),
              ("productList",
               BsonValue.arr [BsonValue.doc [("id", BsonValue.str "p1")]])]])
          = HandlerResult.panicked :=
  ⟨by decide, by decide, by decide⟩

/-- C3: the sanitizer output is the input with a backslash inserted
immediately before each occurrence of a character from the escaped set and
is otherwise unchanged; inputs with none of these characters are returned
verbatim. -/
theorem sanitize_escapes_metachars (s : String) :
    SanitizeString s = escapeSpec s ∧
      ((∀ c ∈ s.data, isMetaChar c = false) → SanitizeString s = s) := by
  obtain ⟨cs⟩ := s
  refine ⟨congrArg String.mk (saniAux_eq_flatMap cs), fun hno => ?_⟩
  exact congrArg String.mk (saniAux_id cs fun c hc => hno c hc)

/-- Witness for C3: a metacharacter-free input is returned verbatim, and a
dotted input is escaped as the specification describes. -/
theorem sanitize_escapes_metachars_witness :
    SanitizeString "abc" = "abc" ∧ SanitizeString "a.b" = escapeSpec "a.b" :=
  ⟨(sanitize_escapes_metachars "abc").2 (by decide),
   (sanitize_escapes_metachars "a.b").1⟩

/-- C4 counterexample: at the Atoi-parseable page string for 2^62+1 with
limit 4 the code computes the skip in wrapping int64 arithmetic and gets
0, while the claim's exact (page-1)*limit is 2^64, so the claim as stated
fails on the code. -/
theorem pagination_skip_wraps_counterexample :
    effectivePage "4611686018427387905" = 2 ^ 62 + 1 ∧
      effectiveLimit "4" = 4 ∧
      (getProductsOptions (effectivePage "4611686018427387905")
          (effectiveLimit "4")).skip = 0 ∧
      (effectivePage "4611686018427387905" - 1) * effectiveLimit "4"
        = 2 ^ 64 ∧
      (0 : Int) ≠ 2 ^ 64 :=
  ⟨by decide, by decide, by decide, by decide, by decide⟩

/-- C4 (amended): the constructed options skip (page-1)*limit group
documents computed in wrapping int64 arithmetic — equal to exactly
(page-1)*limit whenever that product lies in the int64 range — return at
most limit group documents, request an ascending sort on the product-name
field, and apply skip and limit at the group-document level before
flattening, so a page can carry a number of flattened entries different
from the limit (here 4 entries for limit 2). -/
theorem pagination_skip_limit_group_level (pageStr limitStr : String)
    (sorted : List BsonDoc) :
    (getProductsOptions (effectivePage pageStr) (effectiveLimit limitStr)).skip
        = wrapInt64 ((effectivePage pageStr - 1) * effectiveLimit limitStr) ∧
      (-(2 ^ 63) ≤ (effectivePage pageStr - 1) * effectiveLimit limitStr →
        (effectivePage pageStr - 1) * effectiveLimit limitStr < 2 ^ 63 →
        (getProductsOptions (effectivePage pageStr)
            (effectiveLimit limitStr)).skip
          = (effectivePage pageStr - 1) * effectiveLimit limitStr) ∧
      (getProductsOptions (effectivePage pageStr)
          (effectiveLimit limitStr)).sortField = "productList.productName" ∧
      (getProductsOptions (effectivePage pageStr)
          (effectiveLimit limitStr)).sortOrder = 1 ∧
      applySkipLimit sorted
          (getProductsOptions (effectivePage pageStr) (effectiveLimit limitStr))
        = (sorted.drop
            ((wrapInt64 ((effectivePage pageStr - 1)
              * effectiveLimit limitStr)).toNat)).take
            (effectiveLimit limitStr).toNat ∧
      (applySkipLimit sorted
          (getProductsOptions (effectivePage pageStr)
            (effectiveLimit limitStr))).length
        ≤ (effectiveLimit limitStr).toNat ∧
      (getProductsData (applySkipLimit [demoGroup1, demoGroup2]
          (getProductsOptions 1 2))).map (fun t => t.toList.length)
        = some 4 ∧
      (getProductsOptions 1 2).limit.toNat = 2 := by
  have hp := effectivePage_bounds pageStr
  have hw : wrapInt64 (effectivePage pageStr - 1)
      = effectivePage pageStr - 1 :=
    wrapInt64_eq_self _ (by linarith [hp.1]) (by linarith [hp.2])
  have hskip : (getProductsOptions (effectivePage pageStr)
      (effectiveLimit limitStr)).skip
      = wrapInt64 ((effectivePage pageStr - 1) * effectiveLimit limitStr) := by
    show wrapInt64 (wrapInt64 (effectivePage pageStr - 1)
        * effectiveLimit limitStr) = _
    rw [hw]
  refine ⟨hskip, ?_, rfl, rfl, ?_, take_length_le _ _, by decide, rfl⟩
  · intro hlo hhi
    rw [hskip]
    exact wrapInt64_eq_self _ hlo hhi
  · show (sorted.drop ((wrapInt64 (wrapInt64 (effectivePage pageStr - 1)
        * effectiveLimit limitStr)).toNat)).take
        (effectiveLimit limitStr).toNat = _
    rw [hw]

/-- Witness for C4: for page "2" and limit "5" the product (2-1)*5 lies in
the int64 range, so the skip equals exactly (page-1)*limit. -/
theorem pagination_skip_limit_group_level_witness :
    (getProductsOptions (effectivePage "2") (effectiveLimit "5")).skip
      = (effectivePage "2" - 1) * effectiveLimit "5" :=
  ((pagination_skip_limit_group_level "2" "5" []).2.1) (by decide) (by decide)

/-- C5: a page string that does not parse as an integer or parses to a
non-positive value yields effective page 1, and the same condition on the
limit string yields effective limit 10. -/
theorem invalid_page_limit_defaults (s : String)
    (h : Atoi s = none ∨ ∃ n : Int, Atoi s = some n ∧ n < 1) :
    effectivePage s = 1 ∧ effectiveLimit s = 10 := by
  rcases h with h | ⟨n, hn, hlt⟩
  · simp [effectivePage, effectiveLimit, h]
  · simp [effectivePage, effectiveLimit, hn, hlt]

/-- Witness for C5: the inputs "0", "-3" and "abc" all fall back to page 1
and limit 10. -/
theorem invalid_page_limit_defaults_witness :
    (effectivePage "0" = 1 ∧ effectiveLimit "0" = 10) ∧
      (effectivePage "-3" = 1 ∧ effectiveLimit "-3" = 10) ∧
      (effectivePage "abc" = 1 ∧ effectiveLimit "abc" = 10) :=
  ⟨invalid_page_limit_defaults "0" (Or.inr ⟨0, by decide, by decide⟩),
   invalid_page_limit_defaults "-3" (Or.inr ⟨-3, by decide, by decide⟩),
   invalid_page_limit_defaults "abc" (Or.inl (by decide))⟩

/-- C6: for a product-list entry whose brokers field is an array, the
flattened brokers list keeps exactly the well-formed (document) items in
order, each malformed item is dropped individually, and the resulting
slice is never nil. -/
theorem malformed_brokers_dropped (pm : BsonDoc) (items : List BsonValue)
    (h : lookupField pm "brokers" = some (BsonValue.arr items)) :
    (extractBrokers pm).toList = items.filterMap toBrokerOption ∧
      (extractBrokers pm).isNil = false :=
  ⟨extractBrokers_toList pm items h, extractBrokers_not_nil pm⟩

/-- Witness for C6: two well-formed brokers mixed with one malformed item
yield exactly two brokers, and the request over such a document still
succeeds with a 200 response. -/
theorem malformed_brokers_dropped_witness :
    (extractBrokers demoItem2Fields).toList
        = [{ key := "b1", channelName := "c1" },
           { key := "b2", channelName := "c2" }] ∧
      GetProducts "" "" "" "" (fun _ _ => QueryOutcome.docs [demoGroup2])
        = HandlerResult.ok ⟨false, [demoProductA, demoProductB]⟩ :=
  ⟨((malformed_brokers_dropped demoItem2Fields
      [.doc [("key", .str "b1"), ("channelName", .str "c1")],
       .str "malformed",
       .doc [("key", .str "b2"), ("channelName", .str "c2")]] rfl).1).trans
      (by decide),
   by decide⟩

/-- C7: a matched group document whose `productList` field is missing or
not an array contributes zero entries, the remaining groups are still
processed, and no error arises from the skip. -/
theorem missing_productList_group_skipped (d : BsonDoc)
    (h : hasProductListArray d = false) :
    (∀ acc : GoSlice Product, processGroup acc d = some acc) ∧
      ∀ (pre post : List BsonDoc),
        getProductsData (pre ++ d :: post) = getProductsData (pre ++ post) := by
  refine ⟨processGroup_skip d h, fun pre post => ?_⟩
  unfold getProductsData
  exact processGroups_append_skip d h pre post GoSlice.goNil

/-- Witness for C7: a group document with no `productList` field
contributes nothing and leaves the rest of the result set unchanged. -/
theorem missing_productList_group_skipped_witness :
    processGroup GoSlice.goNil [("name", BsonValue.str "G")]
        = some GoSlice.goNil ∧
      getProductsData ([demoGroupSmall] ++ [("name", BsonValue.str "G")] :: [])
        = getProductsData ([demoGroupSmall] ++ []) :=
  ⟨(missing_productList_group_skipped [("name", BsonValue.str "G")]
      (by decide)).1 GoSlice.goNil,
   (missing_productList_group_skipped [("name", BsonValue.str "G")]
      (by decide)).2 [demoGroupSmall] []⟩

/-- C8: when both `param` and `status` are empty the constructed filter is
the empty document: it has no or-clause and no product-status clause, and
under the conjunctive filter semantics it matches every document. -/
theorem empty_params_empty_filter :
    buildFilter "" "" = [] ∧
      (∀ v : FilterValue, ("$or", v) ∉ buildFilter "" "" ∧
        ("productList.productStatus", v) ∉ buildFilter "" "") ∧
      ∀ (matchClause : String → FilterValue → BsonDoc → Bool) (d : BsonDoc),
        filterMatches matchClause (buildFilter "" "") d = true := by
  refine ⟨rfl, fun v => ⟨?_, ?_⟩, fun mc d => rfl⟩
  · simp [buildFilter]
  · simp [buildFilter]

/-- C9: a find error or a decode error makes the handler answer status 500
with exactly the raw error message and no data, and such whole-query
errors are the only source of error responses. -/
theorem query_errors_give_500_raw (param status pageStr limitStr : String)
    (store : List (String × FilterValue) → FindOptions → QueryOutcome) :
    (∀ e, store (buildFilter param status)
          (getProductsOptions (effectivePage pageStr) (effectiveLimit limitStr))
          = QueryOutcome.findError e →
        GetProducts param status pageStr limitStr store
          = HandlerResult.errorStatus 500 e) ∧
      (∀ e, store (buildFilter param status)
            (getProductsOptions (effectivePage pageStr) (effectiveLimit limitStr))
            = QueryOutcome.decodeError e →
          GetProducts param status pageStr limitStr store
            = HandlerResult.errorStatus 500 e) ∧
      ∀ code body,
        GetProducts param status pageStr limitStr store
            = HandlerResult.errorStatus code body →
          code = 500 ∧
            (store (buildFilter param status)
                (getProductsOptions (effectivePage pageStr)
                  (effectiveLimit limitStr))
                = QueryOutcome.findError body ∨
              store (buildFilter param status)
                (getProductsOptions (effectivePage pageStr)
                  (effectiveLimit limitStr))
                = QueryOutcome.decodeError body) := by
  refine ⟨?_, ?_, ?_⟩
  · intro e he
    simp only [GetProducts, he]
  · intro e he
    simp only [GetProducts, he]
  · intro code body hres
    simp only [GetProducts] at hres
    cases hs : store (buildFilter param status)
        (getProductsOptions (effectivePage pageStr) (effectiveLimit limitStr)) with
    | findError m =>
      rw [hs] at hres
      have hres' : HandlerResult.errorStatus 500 m
          = HandlerResult.errorStatus code body := hres
      injection hres' with h1 h2
      exact ⟨h1.symm, Or.inl (by rw [h2])⟩
    | decodeError m =>
      rw [hs] at hres
      have hres' : HandlerResult.errorStatus 500 m
          = HandlerResult.errorStatus code body := hres
      injection hres' with h1 h2
      exact ⟨h1.symm, Or.inr (by rw [h2])⟩
    | docs results =>
      rw [hs] at hres
      have hres' : (match getProductsData results with
          | none => HandlerResult.panicked
          | some products => HandlerResult.ok products)
          = HandlerResult.errorStatus code body := hres
      cases hd : getProductsData results with
      | none => rw [hd] at hres'; exact HandlerResult.noConfusion hres'
      | some p => rw [hd] at hres'; exact HandlerResult.noConfusion hres'

/-- Witness for C9: a store that fails the find with message "boom" makes
the handler answer 500 with body "boom". -/
theorem query_errors_give_500_raw_witness :
    GetProducts "x" "y" "2" "5" (fun _ _ => QueryOutcome.findError "boom")
      = HandlerResult.errorStatus 500 "boom" :=
  (query_errors_give_500_raw "x" "y" "2" "5"
      (fun _ _ => QueryOutcome.findError "boom")).1 "boom" rfl

/-- C10: when the flattening produces zero products the data slice is
still the nil slice and marshals to JSON null, whereas every flattened
product's brokers slice is non-nil and marshals to a JSON array. -/
theorem nil_data_null_vs_brokers_array (results : List BsonDoc)
    (s : GoSlice Product) (h : getProductsData results = some s) :
    (s.toList = [] → s.isNil = true ∧ s.marshal = SliceJson.null) ∧
      ∀ p ∈ s.toList, p.brokers.isNil = false ∧
        p.brokers.marshal = SliceJson.array p.brokers.toList.length := by
  obtain ⟨ps, h1, h2, _h3, h4⟩ := processGroups_spec results GoSlice.goNil s h
  constructor
  · intro hnil
    have hps : ps = [] := by simpa [GoSlice.goNil] using h1.symm.trans hnil
    have hn : s.isNil = true := by rw [h2, hps]; simp [GoSlice.goNil]
    exact ⟨hn, by simp [GoSlice.marshal, hn]⟩
  · intro p hp
    have hp' : p ∈ ps := by
      rw [h1] at hp
      simpa [GoSlice.goNil] using hp
    have hb := h4 p hp'
    exact ⟨hb, by simp [GoSlice.marshal, hb]⟩

/-- Witness for C10: an empty result set keeps the nil data slice (JSON
null) while a flattened product with no brokers field still carries a
non-nil brokers slice (JSON array). -/
theorem nil_data_null_vs_brokers_array_witness :
    ((GoSlice.goNil : GoSlice Product).isNil = true ∧
        (GoSlice.goNil : GoSlice Product).marshal = SliceJson.null) ∧
      (demoProductSmall.brokers.isNil = false ∧
        demoProductSmall.brokers.marshal
          = SliceJson.array demoProductSmall.brokers.toList.length) :=
  ⟨(nil_data_null_vs_brokers_array [] GoSlice.goNil rfl).1 rfl,
   (nil_data_null_vs_brokers_array [demoGroupSmall]
      ⟨false, [demoProductSmall]⟩ (by decide)).2 demoProductSmall (by decide)⟩

end PocApp
